import Mathlib

/-!
Verification of the ant-navigation path-integration core
(`src/sensor.py`, `src/rover.py`).

The Python classes are embedded shallowly over exact reals (`ℝ`):

* `PolarizedLightSensor` / `AntInspiredRover` mirror the Python objects
  field by field.
* The process-wide random generator (`np.random.normal(0, σ)`) is modelled
  by an ambient stream `ω : ℕ → ℝ` of standard-normal draws together with a
  cursor `i : ℕ`; one draw of `normal(0, σ)` is `σ * ω i` and advances the
  cursor by one.  Operations that sample thread the cursor explicitly.
* Python functions that may raise are embedded with an `Except NavError`
  result; the source contains no `raise`, so the embedded functions never
  produce an error value.
* The unbounded `while` loop of `execute_return_home` is embedded with an
  explicit fuel parameter: `none` means the loop was still running after
  `fuel` iterations.
-/

namespace AntNav

/-- Error taxonomy of the specification (§7).  The source never raises it. -/
inductive NavError : Type
  | invalidConfiguration
deriving DecidableEq

/-- `np.deg2rad`. -/
noncomputable def deg2rad (d : ℝ) : ℝ := d * (Real.pi / 180)

/-- `np.arctan2 y x`, embedded as the complex argument of `x + y·i`
(range `(-π, π]`, matching numpy on the reals). -/
noncomputable def arctan2 (y x : ℝ) : ℝ := Complex.arg ((x : ℂ) + (y : ℂ) * Complex.I)

/-- Python `%` with the positive modulus `2π`: result in `[0, 2π)`. -/
noncomputable def mod2pi (x : ℝ) : ℝ := x - 2 * Real.pi * ⌊x / (2 * Real.pi)⌋

/-- State of `PolarizedLightSensor` (`src/sensor.py`). -/
structure PolarizedLightSensor : Type where
  noise_level : ℝ
  sun_azimuth : ℝ

/-- Effect of `PolarizedLightSensor.__init__`: stores `noise_level`,
sets `sun_azimuth = 0.0`.  No validation is present in the source. -/
def sensorInit (noise_level : ℝ) : PolarizedLightSensor :=
  { noise_level := noise_level, sun_azimuth := 0 }

/-- `PolarizedLightSensor.__init__` viewed as a fallible constructor
(the embedding used to discuss raising behaviour).  The source body has
no `raise`, so the result is always `Except.ok`. -/
def mkSensor (noise_level : ℝ) : Except NavError PolarizedLightSensor :=
  Except.ok (sensorInit noise_level)

/-- `PolarizedLightSensor.set_sun_position`. -/
noncomputable def set_sun_position (s : PolarizedLightSensor) (azimuth_degrees : ℝ) :
    PolarizedLightSensor :=
  { s with sun_azimuth := deg2rad azimuth_degrees }

/-- `PolarizedLightSensor.get_sun_direction`: one draw
`noise = np.random.normal(0, noise_level)` (modelled `noise_level * ω i`),
returns `sun_azimuth + noise` and the advanced cursor. -/
def get_sun_direction (s : PolarizedLightSensor) (ω : ℕ → ℝ) (i : ℕ) : ℝ × ℕ :=
  (s.sun_azimuth + s.noise_level * ω i, i + 1)

/-- `PolarizedLightSensor.get_sun_vector`: calls `get_sun_direction`
(one fresh draw) and returns `(cos angle, sin angle)`. -/
noncomputable def get_sun_vector (s : PolarizedLightSensor) (ω : ℕ → ℝ) (i : ℕ) :
    (ℝ × ℝ) × ℕ :=
  ((Real.cos (get_sun_direction s ω i).1, Real.sin (get_sun_direction s ω i).1),
    (get_sun_direction s ω i).2)

/-- State of `AntInspiredRover` (`src/rover.py`). -/
structure AntInspiredRover : Type where
  position : ℝ × ℝ
  home : ℝ × ℝ
  home_vector : ℝ × ℝ
  heading : ℝ
  distance_traveled : ℝ
  sensor : PolarizedLightSensor
  speed : ℝ
  path_history : List (ℝ × ℝ)
  home_vector_history : List (ℝ × ℝ)

/-- `AntInspiredRover.__init__`. -/
def mkRover (start_position : ℝ × ℝ) (sensor_noise : ℝ) : AntInspiredRover :=
  { position := start_position
    home := start_position
    home_vector := (0, 0)
    heading := 0
    distance_traveled := 0
    sensor := sensorInit sensor_noise
    speed := 1
    path_history := [start_position]
    home_vector_history := [(0, 0)] }

/-- `AntInspiredRover.move_forward`:
`movement = (distance·cos heading, distance·sin heading)`;
`position += movement`, `home_vector -= movement`,
`distance_traveled += distance` (raw, signed), and the post-move
position and home vector are appended to the two history lists. -/
noncomputable def move_forward (st : AntInspiredRover) (distance : ℝ) : AntInspiredRover :=
  { st with
    position := (st.position.1 + distance * Real.cos st.heading,
                 st.position.2 + distance * Real.sin st.heading)
    home_vector := (st.home_vector.1 - distance * Real.cos st.heading,
                    st.home_vector.2 - distance * Real.sin st.heading)
    distance_traveled := st.distance_traveled + distance
    path_history := st.path_history ++
      [(st.position.1 + distance * Real.cos st.heading,
        st.position.2 + distance * Real.sin st.heading)]
    home_vector_history := st.home_vector_history ++
      [(st.home_vector.1 - distance * Real.cos st.heading,
        st.home_vector.2 - distance * Real.sin st.heading)] }

/-- `AntInspiredRover.turn`: add `deg2rad angle` to the heading and reduce
modulo `2π` into `[0, 2π)`. -/
noncomputable def turn (st : AntInspiredRover) (angle_degrees : ℝ) : AntInspiredRover :=
  { st with heading := mod2pi (st.heading + deg2rad angle_degrees) }

/-- `AntInspiredRover.align_to_sun`: one `get_sun_direction` sample;
`heading = sun_direction + deg2rad target` set directly, with no
normalization (the intermediate `turn_needed` of the source is dead code). -/
noncomputable def align_to_sun (st : AntInspiredRover) (target_angle_to_sun : ℝ)
    (ω : ℕ → ℝ) (i : ℕ) : AntInspiredRover × ℕ :=
  ({ st with
      heading := (get_sun_direction st.sensor ω i).1 + deg2rad target_angle_to_sun },
    (get_sun_direction st.sensor ω i).2)

/-- `AntInspiredRover.get_home_distance`: `np.linalg.norm(home_vector)`. -/
noncomputable def get_home_distance (st : AntInspiredRover) : ℝ :=
  Real.sqrt (st.home_vector.1 ^ 2 + st.home_vector.2 ^ 2)

/-- `AntInspiredRover.get_home_direction`: current heading when the home
vector's norm is below `0.01`, else `arctan2` of the home vector. -/
noncomputable def get_home_direction (st : AntInspiredRover) : ℝ :=
  if Real.sqrt (st.home_vector.1 ^ 2 + st.home_vector.2 ^ 2) < 0.01 then st.heading
  else arctan2 st.home_vector.2 st.home_vector.1

/-- `AntInspiredRover.navigate_home`: sets the heading to
`get_home_direction`; nothing else. -/
noncomputable def navigate_home (st : AntInspiredRover) : AntInspiredRover :=
  { st with heading := get_home_direction st }

/-- `AntInspiredRover.get_path_efficiency`. -/
noncomputable def get_path_efficiency (st : AntInspiredRover) : ℝ :=
  if st.distance_traveled = 0 then 1
  else
    Real.sqrt ((st.position.1 - st.home.1) ^ 2 + (st.position.2 - st.home.2) ^ 2) /
      st.distance_traveled

/-- One iteration of the `while` body of `execute_return_home`:
`navigate_home()` then `move_forward(min step_size get_home_distance())`. -/
noncomputable def loopBody (step_size : ℝ) (st : AntInspiredRover) : AntInspiredRover :=
  move_forward (navigate_home st)
    (min step_size (get_home_distance (navigate_home st)))

/-- The `while get_home_distance() > 0.5` loop of `execute_return_home`,
with fuel; `none` means the loop had not exited after `fuel` iterations. -/
noncomputable def returnLoop (step_size : ℝ) : ℕ → AntInspiredRover → ℕ →
    Option (AntInspiredRover × ℕ)
  | 0, st, steps =>
      if 0.5 < get_home_distance st then none else some (st, steps)
  | fuel + 1, st, steps =>
      if 0.5 < get_home_distance st then
        returnLoop step_size fuel (loopBody step_size st) (steps + 1)
      else some (st, steps)

/-- `AntInspiredRover.execute_return_home`: runs the loop from step count 0
and returns the final state with the step count.  The source performs no
validation of `step_size` and contains no `raise`, so the embedded result
is never `Except.error`. -/
noncomputable def execute_return_home (st : AntInspiredRover) (step_size : ℝ)
    (fuel : ℕ) : Option (Except NavError (AntInspiredRover × ℕ)) :=
  Option.map Except.ok (returnLoop step_size fuel st 0)

/-- Step count of a finished `execute_return_home` run. -/
def stepsOf (r : Option (Except NavError (AntInspiredRover × ℕ))) : Option ℕ :=
  match r with
  | some (Except.ok (_, n)) => some n
  | _ => none

/-- The rover's four primitive commands, used to quantify over arbitrary
call sequences. -/
inductive Op : Type
  | turn (angle_degrees : ℝ)
  | move (distance : ℝ)
  | alignToSun (target_angle_to_sun : ℝ)
  | navigateHome

/-- Apply one primitive command, threading the noise cursor. -/
noncomputable def runStep (st : AntInspiredRover) (op : Op) (ω : ℕ → ℝ) (i : ℕ) :
    AntInspiredRover × ℕ :=
  match op with
  | Op.turn a => (turn st a, i)
  | Op.move d => (move_forward st d, i)
  | Op.alignToSun t => align_to_sun st t ω i
  | Op.navigateHome => (navigate_home st, i)

/-- Apply a sequence of primitive commands. -/
noncomputable def runOps : AntInspiredRover → List Op → (ℕ → ℝ) → ℕ →
    AntInspiredRover × ℕ
  | st, [], _, i => (st, i)
  | st, op :: rest, ω, i =>
      runOps (runStep st op ω i).1 rest ω (runStep st op ω i).2

/-- Number of `move_forward` calls in a command sequence. -/
def countMoves : List Op → ℕ
  | [] => 0
  | Op.move _ :: rest => countMoves rest + 1
  | Op.turn _ :: rest => countMoves rest
  | Op.alignToSun _ :: rest => countMoves rest
  | Op.navigateHome :: rest => countMoves rest

/-- The path-integration invariant: the home vector is the displacement
from the current position back to home, componentwise. -/
def homeInv (st : AntInspiredRover) : Prop :=
  st.home_vector.1 = st.home.1 - st.position.1 ∧
    st.home_vector.2 = st.home.2 - st.position.2

/-! ### Helper lemmas -/

lemma returnLoop_zero (step_size : ℝ) (st : AntInspiredRover) (steps : ℕ) :
    returnLoop step_size 0 st steps =
      if 0.5 < get_home_distance st then none else some (st, steps) := rfl

lemma returnLoop_succ (step_size : ℝ) (fuel : ℕ) (st : AntInspiredRover) (steps : ℕ) :
    returnLoop step_size (fuel + 1) st steps =
      if 0.5 < get_home_distance st then
        returnLoop step_size fuel (loopBody step_size st) (steps + 1)
      else some (st, steps) := rfl

lemma cos_arctan2 (y x : ℝ) (h : ¬(x = 0 ∧ y = 0)) :
    Real.cos (arctan2 y x) = x / Real.sqrt (x ^ 2 + y ^ 2) := by
  have hz : ((x : ℂ) + (y : ℂ) * Complex.I) ≠ 0 := by
    simpa [Complex.ext_iff] using h
  rw [arctan2, Complex.cos_arg hz, Complex.abs_add_mul_I]
  simp

lemma sin_arctan2 (y x : ℝ) :
    Real.sin (arctan2 y x) = y / Real.sqrt (x ^ 2 + y ^ 2) := by
  rw [arctan2, Complex.sin_arg, Complex.abs_add_mul_I]
  simp

lemma get_home_distance_nonneg (st : AntInspiredRover) : 0 ≤ get_home_distance st :=
  Real.sqrt_nonneg _

lemma get_home_distance_navigate_home (st : AntInspiredRover) :
    get_home_distance (navigate_home st) = get_home_distance st := rfl

/-- Distance effect of one homing iteration: with the heading set to the
exact home direction, the home distance drops by exactly the moved amount
`min step_size (get_home_distance st)`. -/
lemma get_home_distance_loopBody (step_size : ℝ) (st : AntInspiredRover)
    (h : 0.5 < get_home_distance st) :
    get_home_distance (loopBody step_size st) =
      get_home_distance st - min step_size (get_home_distance st) := by
  set x := st.home_vector.1 with hx
  set y := st.home_vector.2 with hy
  have hd_def : get_home_distance st = Real.sqrt (x ^ 2 + y ^ 2) := rfl
  set d := get_home_distance st with hd
  have hd0 : 0 < d := lt_trans (by norm_num) h
  have hsum_nonneg : (0 : ℝ) ≤ x ^ 2 + y ^ 2 := by positivity
  have hsq : x ^ 2 + y ^ 2 = d ^ 2 := by
    rw [hd_def, Real.sq_sqrt hsum_nonneg]
  have hxy : ¬(x = 0 ∧ y = 0) := by
    rintro ⟨h1, h2⟩
    have hd0' : d = 0 := by rw [hd_def, h1, h2]; simp
    rw [hd0'] at hd0
    norm_num at hd0
  have hdir : get_home_direction st = arctan2 y x := by
    rw [get_home_direction, if_neg]
    rw [← hd_def]
    exact not_lt.mpr (by linarith)
  set m := min step_size d with hm
  have hmd : m ≤ d := min_le_right _ _
  have hbody : loopBody step_size st = move_forward (navigate_home st) m := by
    rw [loopBody, get_home_distance_navigate_home, ← hd, ← hm]
  have hcos : Real.cos ((navigate_home st).heading) = x / d := by
    show Real.cos (get_home_direction st) = x / d
    rw [hdir, cos_arctan2 y x hxy, ← hd_def]
  have hsin : Real.sin ((navigate_home st).heading) = y / d := by
    show Real.sin (get_home_direction st) = y / d
    rw [hdir, sin_arctan2 y x, ← hd_def]
  have hhv1 : (navigate_home st).home_vector.1 = x := rfl
  have hhv2 : (navigate_home st).home_vector.2 = y := rfl
  rw [hbody]
  show Real.sqrt (((navigate_home st).home_vector.1 -
        m * Real.cos ((navigate_home st).heading)) ^ 2 +
      ((navigate_home st).home_vector.2 -
        m * Real.sin ((navigate_home st).heading)) ^ 2) = d - m
  rw [hhv1, hhv2, hcos, hsin]
  have hkey : (x - m * (x / d)) ^ 2 + (y - m * (y / d)) ^ 2 = (d - m) ^ 2 := by
    have hdne : d ≠ 0 := ne_of_gt hd0
    field_simp
    linear_combination (d - m) ^ 2 * hsq
  rw [hkey, Real.sqrt_sq (by linarith)]

/-- Termination of the homing loop: with a positive step size and enough
fuel (`⌈D / step⌉` iterations), the loop exits, taking at most
`⌈D / step⌉` further steps and ending within the arrival threshold. -/
lemma returnLoop_spec (step_size : ℝ) (hstep : 0 < step_size) :
    ∀ (fuel : ℕ) (st : AntInspiredRover) (s : ℕ),
      ⌈get_home_distance st / step_size⌉ ≤ (fuel : ℤ) →
      ∃ st' n, returnLoop step_size fuel st s = some (st', s + n) ∧
        (n : ℤ) ≤ ⌈get_home_distance st / step_size⌉ ∧
        get_home_distance st' ≤ 0.5 := by
  intro fuel
  induction fuel with
  | zero =>
      intro st s hf
      by_cases h : 0.5 < get_home_distance st
      · exfalso
        have hpos : 0 < ⌈get_home_distance st / step_size⌉ :=
          Int.ceil_pos.mpr (div_pos (lt_trans (by norm_num) h) hstep)
        simp only [Nat.cast_zero] at hf
        omega
      · refine ⟨st, 0, ?_, ?_, le_of_not_lt h⟩
        · rw [returnLoop_zero, if_neg h, Nat.add_zero]
        · exact_mod_cast Int.ceil_nonneg
            (div_nonneg (get_home_distance_nonneg st) hstep.le)
  | succ fuel ih =>
      intro st s hf
      by_cases h : 0.5 < get_home_distance st
      · have hd0 : 0 < get_home_distance st := lt_trans (by norm_num) h
        have hbody := get_home_distance_loopBody step_size st h
        have hA : ⌈get_home_distance (loopBody step_size st) / step_size⌉ ≤
            ⌈get_home_distance st / step_size⌉ - 1 := by
          rcases le_or_lt step_size (get_home_distance st) with hc | hc
          · have hmin : min step_size (get_home_distance st) = step_size :=
              min_eq_left hc
            have hdiv : get_home_distance (loopBody step_size st) / step_size =
                get_home_distance st / step_size - 1 := by
              rw [hbody, hmin, sub_div, div_self (ne_of_gt hstep)]
            rw [hdiv, Int.ceil_sub_one]
          · have hmin : min step_size (get_home_distance st) =
                get_home_distance st := min_eq_right hc.le
            have hzero : get_home_distance (loopBody step_size st) = 0 := by
              rw [hbody, hmin, sub_self]
            have hone : 1 ≤ ⌈get_home_distance st / step_size⌉ :=
              Int.ceil_pos.mpr (div_pos hd0 hstep)
            rw [hzero, zero_div, Int.ceil_zero]
            omega
        have hnext : ⌈get_home_distance (loopBody step_size st) / step_size⌉ ≤
            (fuel : ℤ) := by
          push_cast at hf ⊢
          linarith
        obtain ⟨st', n', heq, hn', hfin⟩ := ih (loopBody step_size st) (s + 1) hnext
        refine ⟨st', n' + 1, ?_, ?_, hfin⟩
        · rw [returnLoop_succ, if_pos h, heq]
          congr 1
          congr 1
          omega
        · push_cast
          linarith
      · refine ⟨st, 0, ?_, ?_, le_of_not_lt h⟩
        · rw [returnLoop_succ, if_neg h, Nat.add_zero]
        · exact_mod_cast Int.ceil_nonneg
            (div_nonneg (get_home_distance_nonneg st) hstep.le)

/-- With `step_size = 0` the iteration moves by `min 0 d = 0`, so the home
distance never changes and the loop never exits: every fuel bound is
exhausted. -/
lemma returnLoop_zero_step (fuel : ℕ) :
    ∀ (st : AntInspiredRover) (s : ℕ), 0.5 < get_home_distance st →
      returnLoop 0 fuel st s = none := by
  induction fuel with
  | zero =>
      intro st s h
      rw [returnLoop_zero, if_pos h]
  | succ fuel ih =>
      intro st s h
      have hd0 : 0 < get_home_distance st := lt_trans (by norm_num) h
      have hbody := get_home_distance_loopBody 0 st h
      have hmin : min (0 : ℝ) (get_home_distance st) = 0 := min_eq_left hd0.le
      rw [hmin, sub_zero] at hbody
      rw [returnLoop_succ, if_pos h]
      exact ih _ _ (hbody ▸ h)

/-- When the agent already starts within the arrival threshold the loop
exits immediately, for any fuel and any step size. -/
lemma returnLoop_done (step_size : ℝ) (fuel : ℕ) (st : AntInspiredRover) (s : ℕ)
    (h : ¬ 0.5 < get_home_distance st) :
    returnLoop step_size fuel st s = some (st, s) := by
  cases fuel with
  | zero => rw [returnLoop_zero, if_neg h]
  | succ fuel => rw [returnLoop_succ, if_neg h]

lemma homeInv_runStep (st : AntInspiredRover) (op : Op) (ω : ℕ → ℝ) (i : ℕ)
    (h : homeInv st) : homeInv (runStep st op ω i).1 := by
  obtain ⟨h1, h2⟩ := h
  cases op with
  | turn a => exact ⟨h1, h2⟩
  | move d =>
      refine ⟨?_, ?_⟩
      · show st.home_vector.1 - d * Real.cos st.heading =
          st.home.1 - (st.position.1 + d * Real.cos st.heading)
        rw [h1]; ring
      · show st.home_vector.2 - d * Real.sin st.heading =
          st.home.2 - (st.position.2 + d * Real.sin st.heading)
        rw [h2]; ring
  | alignToSun t => exact ⟨h1, h2⟩
  | navigateHome => exact ⟨h1, h2⟩

lemma homeInv_runOps (ops : List Op) :
    ∀ (st : AntInspiredRover) (ω : ℕ → ℝ) (i : ℕ),
      homeInv st → homeInv (runOps st ops ω i).1 := by
  induction ops with
  | nil => intro st ω i h; exact h
  | cons op rest ih =>
      intro st ω i h
      exact ih _ ω _ (homeInv_runStep st op ω i h)

/-- The trajectory-log invariant: the last recorded snapshots are the
current position and home vector. -/
def histInv (st : AntInspiredRover) : Prop :=
  st.path_history.getLast? = some st.position ∧
    st.home_vector_history.getLast? = some st.home_vector

lemma histInv_runStep (st : AntInspiredRover) (op : Op) (ω : ℕ → ℝ) (i : ℕ)
    (h : histInv st) : histInv (runStep st op ω i).1 := by
  obtain ⟨h1, h2⟩ := h
  cases op with
  | turn a => exact ⟨h1, h2⟩
  | move d =>
      constructor
      · show (st.path_history ++ [_]).getLast? = some _
        rw [List.getLast?_concat]
        rfl
      · show (st.home_vector_history ++ [_]).getLast? = some _
        rw [List.getLast?_concat]
        rfl
  | alignToSun t => exact ⟨h1, h2⟩
  | navigateHome => exact ⟨h1, h2⟩

lemma hist_length_runStep (st : AntInspiredRover) (op : Op) (ω : ℕ → ℝ) (i : ℕ) :
    (runStep st op ω i).1.path_history.length =
        st.path_history.length + countMoves [op] ∧
      (runStep st op ω i).1.home_vector_history.length =
        st.home_vector_history.length + countMoves [op] := by
  cases op with
  | turn a => exact ⟨rfl, rfl⟩
  | move d =>
      constructor
      · show (st.path_history ++ [_]).length = st.path_history.length + 1
        rw [List.length_append, List.length_singleton]
      · show (st.home_vector_history ++ [_]).length =
          st.home_vector_history.length + 1
        rw [List.length_append, List.length_singleton]
  | alignToSun t => exact ⟨rfl, rfl⟩
  | navigateHome => exact ⟨rfl, rfl⟩

lemma countMoves_cons (op : Op) (rest : List Op) :
    countMoves (op :: rest) = countMoves [op] + countMoves rest := by
  cases op
  all_goals simp only [countMoves]
  all_goals omega

lemma hist_runOps (ops : List Op) :
    ∀ (st : AntInspiredRover) (ω : ℕ → ℝ) (i : ℕ),
      (runOps st ops ω i).1.path_history.length =
          st.path_history.length + countMoves ops ∧
        (runOps st ops ω i).1.home_vector_history.length =
          st.home_vector_history.length + countMoves ops ∧
        (histInv st → histInv (runOps st ops ω i).1) := by
  induction ops with
  | nil => intro st ω i; exact ⟨rfl, rfl, fun h => h⟩
  | cons op rest ih =>
      intro st ω i
      obtain ⟨hl1, hl2⟩ := hist_length_runStep st op ω i
      obtain ⟨ih1, ih2, ih3⟩ := ih (runStep st op ω i).1 ω (runStep st op ω i).2
      refine ⟨?_, ?_, ?_⟩
      · show (runOps (runStep st op ω i).1 rest ω
            (runStep st op ω i).2).1.path_history.length = _
        rw [countMoves_cons, ih1, hl1]
        omega
      · show (runOps (runStep st op ω i).1 rest ω
            (runStep st op ω i).2).1.home_vector_history.length = _
        rw [countMoves_cons, ih2, hl2]
        omega
      · intro h
        exact ih3 (histInv_runStep st op ω i h)

lemma odometer_runOps (ops : List Op) :
    ∀ (st : AntInspiredRover) (ω : ℕ → ℝ) (i : ℕ),
      (∀ d, Op.move d ∈ ops → 0 ≤ d) →
      st.distance_traveled ≤ (runOps st ops ω i).1.distance_traveled := by
  induction ops with
  | nil => intro st ω i _; exact le_refl _
  | cons op rest ih =>
      intro st ω i h
      have hrest : ∀ d, Op.move d ∈ rest → 0 ≤ d :=
        fun d hd => h d (List.mem_cons_of_mem _ hd)
      have hstep : st.distance_traveled ≤ (runStep st op ω i).1.distance_traveled := by
        cases op with
        | turn a => exact le_refl _
        | move d =>
            have hd : 0 ≤ d := h d (List.mem_cons_self _ _)
            show st.distance_traveled ≤ st.distance_traveled + d
            linarith
        | alignToSun t => exact le_refl _
        | navigateHome => exact le_refl _
      exact le_trans hstep (ih _ ω _ hrest)

/-! ### Concrete states used in witnesses and counterexamples -/

/-- The all-zero noise stream (every Gaussian draw is 0, i.e. no noise). -/
def zeroNoise : ℕ → ℝ := fun _ => 0

/-- A noise stream whose draws are pairwise distinct. -/
def natNoise : ℕ → ℝ := fun n => (n : ℝ)

/-- An agent state 2 m east of home (home vector `(-2, 0)`). -/
noncomputable def stFar : AntInspiredRover :=
  { mkRover (0, 0) 0 with position := (2, 0), home_vector := (-2, 0) }

/-- An agent state 1.3 m east of home (home vector `(-13/10, 0)`). -/
noncomputable def st13 : AntInspiredRover :=
  { mkRover (0, 0) 0 with position := (13 / 10, 0), home_vector := (-(13 / 10), 0) }

lemma stFar_dist : get_home_distance stFar = 2 := by
  show Real.sqrt ((-2 : ℝ) ^ 2 + (0 : ℝ) ^ 2) = 2
  have h4 : ((-2 : ℝ)) ^ 2 + (0 : ℝ) ^ 2 = 2 ^ 2 := by norm_num
  rw [h4, Real.sqrt_sq (by norm_num : (0 : ℝ) ≤ 2)]

lemma st13_dist : get_home_distance st13 = 13 / 10 := by
  show Real.sqrt ((-(13 / 10) : ℝ) ^ 2 + (0 : ℝ) ^ 2) = 13 / 10
  have h4 : ((-(13 / 10) : ℝ)) ^ 2 + (0 : ℝ) ^ 2 = (13 / 10) ^ 2 := by norm_num
  rw [h4, Real.sqrt_sq (by norm_num : (0 : ℝ) ≤ 13 / 10)]

lemma mkRover_dist (start : ℝ × ℝ) (noise : ℝ) :
    get_home_distance (mkRover start noise) = 0 := by
  show Real.sqrt ((0 : ℝ) ^ 2 + (0 : ℝ) ^ 2) = 0
  norm_num

/-! ### Claim theorems -/

/-- C1: over exact real arithmetic, for every start position, sensor noise
level, noise stream and finite sequence of primitive commands (in
particular every sequence of `turn` and `move_forward` calls with arbitrary
real arguments), the path-integration invariant
`HomeVector = Home − Position` holds of the resulting agent state; as this
holds for every command sequence it holds after every `move_forward` call. -/
theorem home_vector_invariant (start : ℝ × ℝ) (noise : ℝ) (ops : List Op)
    (ω : ℕ → ℝ) (i : ℕ) :
    ((runOps (mkRover start noise) ops ω i).1).home_vector.1 =
        ((runOps (mkRover start noise) ops ω i).1).home.1 -
          ((runOps (mkRover start noise) ops ω i).1).position.1 ∧
      ((runOps (mkRover start noise) ops ω i).1).home_vector.2 =
        ((runOps (mkRover start noise) ops ω i).1).home.2 -
          ((runOps (mkRover start noise) ops ω i).1).position.2 := by
  have h0 : homeInv (mkRover start noise) := by
    constructor
    · show (0 : ℝ) = start.1 - start.1
      rw [sub_self]
    · show (0 : ℝ) = start.2 - start.2
      rw [sub_self]
  exact homeInv_runOps ops (mkRover start noise) ω i h0

/-- C9: `navigate_home` sets the heading to `get_home_direction` and
changes nothing else — position, home, home vector, odometer, both
trajectory logs and the sensor are untouched; the operation involves no
noise draw (its embedding does not consult the noise stream). -/
theorem navigate_home_frame (st : AntInspiredRover) :
    (navigate_home st).heading = get_home_direction st ∧
      (navigate_home st).position = st.position ∧
      (navigate_home st).home = st.home ∧
      (navigate_home st).home_vector = st.home_vector ∧
      (navigate_home st).distance_traveled = st.distance_traveled ∧
      (navigate_home st).path_history = st.path_history ∧
      (navigate_home st).home_vector_history = st.home_vector_history ∧
      (navigate_home st).sensor = st.sensor :=
  ⟨rfl, rfl, rfl, rfl, rfl, rfl, rfl, rfl⟩

/-- C10: every `move_forward` (with any distance, zero and negative
included) appends exactly one post-move snapshot to each trajectory log
and no other primitive touches them: after any command sequence from a
fresh agent both logs have length `1 + number of move_forward calls`, and
their last entries are the current position and home vector. -/
theorem trajectory_log_spec (start : ℝ × ℝ) (noise : ℝ) (ops : List Op)
    (ω : ℕ → ℝ) (i : ℕ) :
    ((runOps (mkRover start noise) ops ω i).1).path_history.length =
        1 + countMoves ops ∧
      ((runOps (mkRover start noise) ops ω i).1).home_vector_history.length =
        1 + countMoves ops ∧
      ((runOps (mkRover start noise) ops ω i).1).path_history.getLast? =
        some ((runOps (mkRover start noise) ops ω i).1).position ∧
      ((runOps (mkRover start noise) ops ω i).1).home_vector_history.getLast? =
        some ((runOps (mkRover start noise) ops ω i).1).home_vector := by
  obtain ⟨h1, h2, h3⟩ := hist_runOps ops (mkRover start noise) ω i
  have hinv : histInv (mkRover start noise) := ⟨rfl, rfl⟩
  obtain ⟨g1, g2⟩ := h3 hinv
  have hl : (mkRover start noise).path_history.length = 1 := rfl
  have hl' : (mkRover start noise).home_vector_history.length = 1 := rfl
  refine ⟨?_, ?_, g1, g2⟩
  · rw [h1, hl]
  · rw [h2, hl']

/-- C8: `get_path_efficiency` returns exactly 1 whenever the odometer is
0, and otherwise the unclamped ratio of the straight-line distance from
home over the odometer; after a single `move_forward` with positive
distance from any state located at home with odometer 0 (a fresh agent,
possibly after turns) the efficiency is exactly 1. -/
theorem path_efficiency_spec :
    (∀ st : AntInspiredRover, st.distance_traveled = 0 →
        get_path_efficiency st = 1) ∧
      (∀ st : AntInspiredRover, st.distance_traveled ≠ 0 →
        get_path_efficiency st =
          Real.sqrt ((st.position.1 - st.home.1) ^ 2 +
              (st.position.2 - st.home.2) ^ 2) / st.distance_traveled) ∧
      (∀ (st : AntInspiredRover) (d : ℝ), st.distance_traveled = 0 →
        st.position = st.home → 0 < d →
        get_path_efficiency (move_forward st d) = 1) := by
  refine ⟨?_, ?_, ?_⟩
  · intro st h
    rw [get_path_efficiency, if_pos h]
  · intro st h
    rw [get_path_efficiency, if_neg h]
  · intro st d h0 hpos hd
    have hdt : (move_forward st d).distance_traveled = d := by
      show st.distance_traveled + d = d
      rw [h0, zero_add]
    have hp1 : st.position.1 = st.home.1 := by rw [hpos]
    have hp2 : st.position.2 = st.home.2 := by rw [hpos]
    have hx : (move_forward st d).position.1 - (move_forward st d).home.1 =
        d * Real.cos st.heading := by
      show st.position.1 + d * Real.cos st.heading - st.home.1 = _
      rw [hp1]; ring
    have hy : (move_forward st d).position.2 - (move_forward st d).home.2 =
        d * Real.sin st.heading := by
      show st.position.2 + d * Real.sin st.heading - st.home.2 = _
      rw [hp2]; ring
    rw [get_path_efficiency, if_neg (by rw [hdt]; exact ne_of_gt hd), hdt, hx, hy]
    have hsq : (d * Real.cos st.heading) ^ 2 + (d * Real.sin st.heading) ^ 2 =
        d ^ 2 := by
      linear_combination d ^ 2 * Real.sin_sq_add_cos_sq st.heading
    rw [hsq, Real.sqrt_sq hd.le, div_self (ne_of_gt hd)]

/-- C8 witness: both branches evaluated at a concrete fresh agent. -/
theorem path_efficiency_spec_witness :
    get_path_efficiency (mkRover (0, 0) 0) = 1 ∧
      get_path_efficiency (move_forward (mkRover (0, 0) 0) 2) = 1 :=
  ⟨path_efficiency_spec.1 (mkRover (0, 0) 0) rfl,
    path_efficiency_spec.2.2 (mkRover (0, 0) 0) 2 rfl rfl (by norm_num)⟩

/-- C4 (amended): each sensor method call performs exactly one Gaussian
draw (the cursor advances by one): `get_sun_direction` returns
`sun_azimuth + noise_level·draw`, and `get_sun_vector` derives both of its
components from the single draw made inside that call, so its vector
always equals `(cos θ, sin θ)` of the one noisy angle `θ` sampled during
that call.  However, no operation returns both the angle and the vector of
a single draw: angle and vector can only be obtained by separate calls
with independent draws. -/
theorem sensor_single_draw_per_call (s : PolarizedLightSensor) (ω : ℕ → ℝ)
    (i : ℕ) :
    get_sun_direction s ω i = (s.sun_azimuth + s.noise_level * ω i, i + 1) ∧
      get_sun_vector s ω i =
        ((Real.cos (s.sun_azimuth + s.noise_level * ω i),
            Real.sin (s.sun_azimuth + s.noise_level * ω i)), i + 1) :=
  ⟨rfl, rfl⟩

/-- C4 is false as stated of the source: the angle and the unit vector of
a logical reading come from two separate methods drawing noise
independently; with sun azimuth 0, noise level 1 and draws 0, 1, …, the
angle read first is 0 while the vector read next is `(cos 1, sin 1)`,
which is not `(cos 0, sin 0)`. -/
theorem sensor_two_call_mismatch_counterexample :
    (get_sun_direction (sensorInit 1) natNoise 0).1 = 0 ∧
      (get_sun_direction (sensorInit 1) natNoise 0).2 = 1 ∧
      (get_sun_vector (sensorInit 1) natNoise 1).1 ≠
        (Real.cos (get_sun_direction (sensorInit 1) natNoise 0).1,
          Real.sin (get_sun_direction (sensorInit 1) natNoise 0).1) := by
  refine ⟨?_, rfl, ?_⟩
  · show (0 : ℝ) + 1 * ((0 : ℕ) : ℝ) = 0
    norm_num
  · have hv : (get_sun_vector (sensorInit 1) natNoise 1).1.2 = Real.sin 1 := by
      show Real.sin ((0 : ℝ) + 1 * ((1 : ℕ) : ℝ)) = Real.sin 1
      norm_num
    have ha : Real.sin ((get_sun_direction (sensorInit 1) natNoise 0).1) = 0 := by
      show Real.sin ((0 : ℝ) + 1 * ((0 : ℕ) : ℝ)) = 0
      norm_num
    have hsin1 : 0 < Real.sin 1 :=
      Real.sin_pos_of_pos_of_lt_pi (by norm_num) (by linarith [Real.pi_gt_three])
    intro h
    have h2 : (get_sun_vector (sensorInit 1) natNoise 1).1.2 =
        Real.sin ((get_sun_direction (sensorInit 1) natNoise 0).1) :=
      congrArg Prod.snd h
    rw [hv, ha] at h2
    linarith

/-- C5 (amended): sensor construction performs no validation — every
noise level, negative values included, is accepted and stored unchanged,
and no error is ever raised; in particular construction with
NoiseLevel ≥ 0 succeeds, as every construction does. -/
theorem sensor_construction_unvalidated (noise_level : ℝ) :
    mkSensor noise_level = Except.ok (sensorInit noise_level) ∧
      (sensorInit noise_level).noise_level = noise_level ∧
      (sensorInit noise_level).sun_azimuth = 0 :=
  ⟨rfl, rfl, rfl⟩

/-- C5 is false as stated of the source: constructing with
NoiseLevel = −1 succeeds, returning a sensor that stores −1, instead of
raising InvalidConfiguration. -/
theorem sensor_negative_noise_accepted_counterexample :
    mkSensor (-1) = Except.ok { noise_level := -1, sun_azimuth := 0 } ∧
      mkSensor (-1) ≠ Except.error NavError.invalidConfiguration := by
  refine ⟨rfl, ?_⟩
  intro h
  simp [mkSensor] at h

/-- C6 (amended): `align_to_sun` takes exactly one sensor sample (the
noise cursor advances by one) and sets the heading to
`sample_angle + deg2rad target` directly, WITHOUT normalization into
[0, 2π); all other agent state is unchanged. -/
theorem align_to_sun_effect (st : AntInspiredRover) (target : ℝ) (ω : ℕ → ℝ)
    (i : ℕ) :
    (align_to_sun st target ω i).2 = i + 1 ∧
      (align_to_sun st target ω i).1.heading =
        st.sensor.sun_azimuth + st.sensor.noise_level * ω i + deg2rad target ∧
      (align_to_sun st target ω i).1.position = st.position ∧
      (align_to_sun st target ω i).1.home = st.home ∧
      (align_to_sun st target ω i).1.home_vector = st.home_vector ∧
      (align_to_sun st target ω i).1.distance_traveled = st.distance_traveled ∧
      (align_to_sun st target ω i).1.path_history = st.path_history ∧
      (align_to_sun st target ω i).1.home_vector_history =
        st.home_vector_history ∧
      (align_to_sun st target ω i).1.sensor = st.sensor :=
  ⟨rfl, rfl, rfl, rfl, rfl, rfl, rfl, rfl, rfl⟩

/-- C6's normalization clause is false of the source: from a fresh agent
with a noiseless sensor, `align_to_sun` with target −90° sets the heading
to −π/2, which is negative and hence outside [0, 2π). -/
theorem align_to_sun_unnormalized_counterexample :
    (align_to_sun (mkRover (0, 0) 0) (-90) zeroNoise 0).1.heading < 0 := by
  show (0 : ℝ) + (0 : ℝ) * zeroNoise 0 + (-90) * (Real.pi / 180) < 0
  have hz : zeroNoise 0 = 0 := rfl
  rw [hz]
  nlinarith [Real.pi_pos]

/-- C7 (amended): the odometer accumulates the raw signed distance of each
`move_forward`, so it is monotone non-decreasing across every command
sequence — and non-negative from a fresh agent — provided every
`move_forward` distance is ≥ 0; a negative distance decreases it (see the
counterexample). -/
theorem odometer_monotone_for_nonneg_moves :
    (∀ (st : AntInspiredRover) (ops : List Op) (ω : ℕ → ℝ) (i : ℕ),
        (∀ d, Op.move d ∈ ops → 0 ≤ d) →
        st.distance_traveled ≤ (runOps st ops ω i).1.distance_traveled) ∧
      (∀ (start : ℝ × ℝ) (noise : ℝ) (ops : List Op) (ω : ℕ → ℝ) (i : ℕ),
        (∀ d, Op.move d ∈ ops → 0 ≤ d) →
        0 ≤ (runOps (mkRover start noise) ops ω i).1.distance_traveled) := by
  constructor
  · exact fun st ops ω i h => odometer_runOps ops st ω i h
  · intro start noise ops ω i h
    have hmono := odometer_runOps ops (mkRover start noise) ω i h
    have h0 : (mkRover start noise).distance_traveled = 0 := rfl
    rw [h0] at hmono
    exact hmono

/-- C7 witness: a concrete non-negative command sequence keeps the
odometer non-negative. -/
theorem odometer_monotone_witness :
    0 ≤ (runOps (mkRover (0, 0) 0) [Op.move 2, Op.turn 90]
        zeroNoise 0).1.distance_traveled := by
  apply odometer_monotone_for_nonneg_moves.2
  intro d hd
  simp only [List.mem_cons, List.mem_singleton] at hd
  rcases hd with h | h | h
  · injection h with h'
    rw [h']; norm_num
  · exact Op.noConfusion h
  · exact absurd h (List.not_mem_nil _)

/-- C7 is false as stated: a single `move_forward` with distance −1 from a
fresh agent drives the odometer to −1, which is negative and smaller than
its previous value 0. -/
theorem odometer_negative_counterexample :
    (runOps (mkRover (0, 0) 0) [Op.move (-1)] zeroNoise 0).1.distance_traveled =
        -1 ∧
      (runOps (mkRover (0, 0) 0) [Op.move (-1)]
          zeroNoise 0).1.distance_traveled < 0 := by
  have h : (runOps (mkRover (0, 0) 0) [Op.move (-1)]
      zeroNoise 0).1.distance_traveled = 0 + (-1) := rfl
  rw [h]
  norm_num

/-- C3 (amended): `execute_return_home` performs no validation of
`step_size` and never raises InvalidConfiguration; with `step_size = 0`
and home distance > 0.5 the homing loop never exits (every fuel bound is
exhausted, each iteration moving by `min 0 d = 0`), while with home
distance ≤ 0.5 it returns immediately with 0 steps and the state
unchanged, for every `step_size`. -/
theorem execute_return_home_no_validation :
    (∀ (st : AntInspiredRover) (fuel : ℕ), 0.5 < get_home_distance st →
        execute_return_home st 0 fuel = none) ∧
      (∀ (st : AntInspiredRover) (step_size : ℝ) (fuel : ℕ),
        ¬ 0.5 < get_home_distance st →
        execute_return_home st step_size fuel =
          some (Except.ok (st, 0))) := by
  constructor
  · intro st fuel h
    rw [execute_return_home, returnLoop_zero_step fuel st 0 h]
    rfl
  · intro st step_size fuel h
    rw [execute_return_home, returnLoop_done step_size fuel st 0 h]
    rfl

/-- C3 witness: the amended claim at concrete states (2 m from home, and a
fresh agent at home). -/
theorem execute_return_home_no_validation_witness :
    execute_return_home stFar 0 7 = none ∧
      execute_return_home (mkRover (0, 0) 0) 1 5 =
        some (Except.ok (mkRover (0, 0) 0, 0)) :=
  ⟨execute_return_home_no_validation.1 stFar 7 (by rw [stFar_dist]; norm_num),
    execute_return_home_no_validation.2 (mkRover (0, 0) 0) 1 5
      (by rw [mkRover_dist]; norm_num)⟩

/-- C3 is false as stated of the source: with `step_size = 0` and a home
distance of 2 m, no InvalidConfiguration is raised — after 100 loop
iterations the call has neither returned nor raised; the loop runs
forever, moving `min(0, d) = 0` each iteration. -/
theorem execute_return_home_zero_step_counterexample :
    execute_return_home stFar 0 100 = none ∧
      execute_return_home stFar 0 100 ≠
        some (Except.error NavError.invalidConfiguration) := by
  have h : execute_return_home stFar 0 100 = none := by
    rw [execute_return_home,
      returnLoop_zero_step 100 stFar 0 (by rw [stFar_dist]; norm_num)]
    rfl
  rw [h]
  exact ⟨rfl, fun hh => Option.noConfusion hh⟩

/-- C2 (amended): for every agent state, every `step_size > 0` and fuel at
least `⌈D/step_size⌉` (D the current home distance), `execute_return_home`
terminates, returning a step count of at most `⌈D/step_size⌉` and a final
home distance ≤ 0.5; each loop iteration shortens the home distance by
exactly `min(step_size, distance)`, hence strictly decreases it until the
threshold.  The original "exactly ⌈D/1.0⌉ steps" clause for
`step_size = 1` is false: the loop exits as soon as the distance is ≤ 0.5,
e.g. D = 1.3 needs 1 step, not ⌈1.3⌉ = 2 (see the counterexample). -/
theorem execute_return_home_convergence :
    (∀ (st : AntInspiredRover) (step_size : ℝ) (fuel : ℕ), 0 < step_size →
        ⌈get_home_distance st / step_size⌉ ≤ (fuel : ℤ) →
        ∃ st' n, execute_return_home st step_size fuel =
            some (Except.ok (st', n)) ∧
          (n : ℤ) ≤ ⌈get_home_distance st / step_size⌉ ∧
          get_home_distance st' ≤ 0.5) ∧
      (∀ (st : AntInspiredRover) (step_size : ℝ), 0 < step_size →
        0.5 < get_home_distance st →
        get_home_distance (loopBody step_size st) =
            get_home_distance st - min step_size (get_home_distance st) ∧
          get_home_distance (loopBody step_size st) < get_home_distance st) := by
  constructor
  · intro st step_size fuel hstep hf
    obtain ⟨st', n, heq, hb, hfin⟩ := returnLoop_spec step_size hstep fuel st 0 hf
    refine ⟨st', n, ?_, hb, hfin⟩
    rw [execute_return_home, heq]
    simp
  · intro st step_size hstep h
    have hd0 : 0 < get_home_distance st := lt_trans (by norm_num) h
    have heq := get_home_distance_loopBody step_size st h
    refine ⟨heq, ?_⟩
    rw [heq]
    have hmin : 0 < min step_size (get_home_distance st) := lt_min hstep hd0
    linarith

/-- C2 witness: termination and per-iteration strict decrease at a
concrete state 2 m from home with step 1 and fuel ⌈2/1⌉ = 2. -/
theorem execute_return_home_convergence_witness :
    (∃ st' n, execute_return_home stFar 1 2 = some (Except.ok (st', n)) ∧
        (n : ℤ) ≤ ⌈get_home_distance stFar / 1⌉ ∧
        get_home_distance st' ≤ 0.5) ∧
      (get_home_distance (loopBody 1 stFar) =
          get_home_distance stFar - min 1 (get_home_distance stFar) ∧
        get_home_distance (loopBody 1 stFar) < get_home_distance stFar) :=
  ⟨execute_return_home_convergence.1 stFar 1 2 (by norm_num)
      (by
        have h : get_home_distance stFar / 1 = ((2 : ℤ) : ℝ) := by
          rw [stFar_dist]; norm_num
        rw [h, Int.ceil_intCast]
        norm_num),
    execute_return_home_convergence.2 stFar 1 (by norm_num)
      (by rw [stFar_dist]; norm_num)⟩

/-- C2's exact-step-count clause is false at D = 1.3 with step 1 (and no
noise involvement at all): the run returns after exactly 1 step (the
distances are 1.3, then 0.3 ≤ 0.5), while ⌈1.3/1⌉ = 2. -/
theorem execute_return_home_step_count_counterexample :
    get_home_distance st13 = 13 / 10 ∧
      stepsOf (execute_return_home st13 1 2) = some 1 ∧
      ⌈(13 / 10 : ℝ) / 1⌉ = 2 := by
  refine ⟨st13_dist, ?_, ?_⟩
  · have h1 : 0.5 < get_home_distance st13 := by rw [st13_dist]; norm_num
    have hb : get_home_distance (loopBody 1 st13) = 3 / 10 := by
      rw [get_home_distance_loopBody 1 st13 h1, st13_dist,
        min_eq_left (by norm_num : (1 : ℝ) ≤ 13 / 10)]
      norm_num
    have h2 : ¬ 0.5 < get_home_distance (loopBody 1 st13) := by
      rw [hb]; norm_num
    rw [execute_return_home, show (2 : ℕ) = 1 + 1 from rfl, returnLoop_succ,
      if_pos h1, returnLoop_done 1 1 (loopBody 1 st13) (0 + 1) h2]
    rfl
  · rw [div_one, Int.ceil_eq_iff]
    constructor <;> norm_num

end AntNav
